import Mathlib

set_option maxRecDepth 8000

/-!
Shallow embedding of the report-parsing core of the Regulatory Compliance &
Safety Verification tool (src/Appp_23.py): the line classifier
`intelligentParser` (named intelligent parser in the source), the upload wrapper
`parse_report`, the keyword-to-standard lookup, and the pass/fail/other
partition of the Test Report Verification page.

Strings are modelled as `List Char`.  The whitespace class of `str.strip` and of
the regex class and the digit/letter classes are modelled over ASCII (all inputs
appearing in the claims are ASCII).  Fallible code is modelled with `Except`:
the fifth pattern attempt of `intelligentParser` executes
`re.match(patterns, line, re.I)` — passing the whole pattern *list* instead of
`patterns[4]` — which raises `TypeError`; the embedding returns `.error ()`
there.
-/

/-- Characters of a string literal. -/
def s2l (s : String) : List Char := s.data

/-- ASCII whitespace: space, tab, newline, carriage return, vertical tab, form feed.
Models membership in the class recognised by `str.strip` and by the regex class `\s`. -/
def isSpaceC (c : Char) : Bool :=
  c.toNat == 32 || c.toNat == 9 || c.toNat == 10 || c.toNat == 13 ||
  c.toNat == 11 || c.toNat == 12

/-- ASCII digit, the regex class `\d`. -/
def isDigitC (c : Char) : Bool := 48 ≤ c.toNat && c.toNat ≤ 57

/-- ASCII capital letter, the regex class `[A-Z]`. -/
def isUpperC (c : Char) : Bool := 65 ≤ c.toNat && c.toNat ≤ 90

/-- The regex class `[A-Z_]` of the quoted-diagnostic pattern. -/
def isUpperUnd (c : Char) : Bool := isUpperC c || c.toNat == 95

/-- ASCII lower-casing, modelling `str.lower()` and `re.I` comparisons. -/
def lowerChar (c : Char) : Char :=
  if 65 ≤ c.toNat && c.toNat ≤ 90 then Char.ofNat (c.toNat + 32) else c

/-- ASCII upper-casing, modelling `str.upper()`. -/
def upperChar (c : Char) : Char :=
  if 97 ≤ c.toNat && c.toNat ≤ 122 then Char.ofNat (c.toNat - 32) else c

def lowerStr (l : List Char) : List Char := l.map lowerChar

def upperStr (l : List Char) : List Char := l.map upperChar

/-- Greedy whitespace skip, the regex `\s*` in front of a non-whitespace literal. -/
def skipWs (l : List Char) : List Char := l.dropWhile isSpaceC

/-- Python `str.strip()`: remove leading and trailing whitespace. -/
def strip (l : List Char) : List Char :=
  ((skipWs l).reverse.dropWhile isSpaceC).reverse

/-- Case-sensitive literal match: the rest of `s` after `pat`, when `pat` is a
leading piece of `s`. -/
def dropLit : List Char → List Char → Option (List Char)
  | [], s => some s
  | _ :: _, [] => none
  | p :: ps, c :: cs => if p = c then dropLit ps cs else none

/-- Case-insensitive literal match (regex under `re.I`). -/
def dropLitCI : List Char → List Char → Option (List Char)
  | [], s => some s
  | _ :: _, [] => none
  | p :: ps, c :: cs => if lowerChar p = lowerChar c then dropLitCI ps cs else none

/-- Python substring containment, `needle in hay`. -/
def containsSub : List Char → List Char → Bool
  | needle, [] => needle.isEmpty
  | needle, c :: cs => (dropLit needle (c :: cs)).isSome || containsSub needle cs

/-- First alternative of a regex alternation that matches at the front of `s`
(case-insensitively); yields the original-case matched slice and the rest.
The alternations of the source patterns have pairwise incompatible first
letters, so at most one alternative can match. -/
def matchAlt : List (List Char) → List Char → Option (List Char × List Char)
  | [], _ => none
  | a :: rest, s =>
    match dropLitCI a s with
    | some r => some (s.take a.length, r)
    | none => matchAlt rest s

/-- Alternation directly followed by the end anchor: an alternative matches only
by consuming the whole remaining input. -/
def matchAltEnd : List (List Char) → List Char → Option (List Char)
  | [], _ => none
  | a :: rest, s =>
    match dropLitCI a s with
    | some [] => some (s.take a.length)
    | _ => matchAltEnd rest s

def arrowLit : List Char := s2l "-->"

/-- Trailing group `\s*(.+)$`: greedy whitespace skip, then the non-empty rest;
when everything left is whitespace the greedy star gives one character back. -/
def tailGroup (t : List Char) : Option (List Char) :=
  match skipWs t with
  | [] => if t.isEmpty then none else some [t.getLastD ' ']
  | c :: cs => some (c :: cs)

/-- Continuation of the three-part arrow pattern
`^(.*?)\s*-->\s*(Passed|Failed|Success)\s*-->\s*(.+)$` after the non-greedy
name group: yields the original-case result word and the third group. -/
def p0After (rest : List Char) : Option (List Char × List Char) :=
  match dropLit arrowLit (skipWs rest) with
  | none => none
  | some r1 =>
    match matchAlt [s2l "Passed", s2l "Failed", s2l "Success"] (skipWs r1) with
    | none => none
    | some (kw, r2) =>
      match dropLit arrowLit (skipWs r2) with
      | none => none
      | some r3 =>
        match tailGroup r3 with
        | none => none
        | some g3 => some (kw, g3)

/-- Backtracking over the non-greedy name group of the three-part arrow
pattern: the shortest leading slice whose continuation matches wins. -/
def match0Aux : List Char → List Char → Option (List Char × List Char × List Char)
  | g1rev, [] =>
    match p0After [] with
    | some (kw, g3) => some (g1rev.reverse, kw, g3)
    | none => none
  | g1rev, c :: cs =>
    match p0After (c :: cs) with
    | some (kw, g3) => some (g1rev.reverse, kw, g3)
    | none => match0Aux (c :: g1rev) cs

/-- Matcher of the first source pattern, `^(.*?)\s*-->\s*(Passed|Failed|Success)\s*-->\s*(.+)$`
under `re.I`; yields the three groups. -/
def match0 (l : List Char) : Option (List Char × List Char × List Char) :=
  match0Aux [] l

/-- Continuation of the two-part arrow pattern `^(.*?)\s*-->\s*(.+)$` after the
non-greedy name group. -/
def p1After (rest : List Char) : Option (List Char) :=
  match dropLit arrowLit (skipWs rest) with
  | none => none
  | some r1 => tailGroup r1

def match1Aux : List Char → List Char → Option (List Char × List Char)
  | g1rev, [] =>
    match p1After [] with
    | some g2 => some (g1rev.reverse, g2)
    | none => none
  | g1rev, c :: cs =>
    match p1After (c :: cs) with
    | some g2 => some (g1rev.reverse, g2)
    | none => match1Aux (c :: g1rev) cs

/-- Matcher of the second source pattern, `^(.*?)\s*-->\s*(.+)$`. -/
def match1 (l : List Char) : Option (List Char × List Char) :=
  match1Aux [] l

/-- Matcher of the third source pattern, the quoted-diagnostic line
`^\d+:\s*([A-Z_]+):\s*"([A-Z]+)"$`, compiled without `re.I`.  Every character
class here is disjoint from the literal that follows it, so the greedy stars
are deterministic maximal runs. -/
def match2 (l : List Char) : Option (List Char × List Char) :=
  if (l.takeWhile isDigitC).isEmpty then none else
  match l.dropWhile isDigitC with
  | ':' :: r1 =>
    if ((r1.dropWhile isSpaceC).takeWhile isUpperUnd).isEmpty then none else
    match (r1.dropWhile isSpaceC).dropWhile isUpperUnd with
    | ':' :: r3 =>
      match List.dropWhile isSpaceC r3 with
      | '\"' :: r5 =>
        if (r5.takeWhile isUpperC).isEmpty then none else
        match r5.dropWhile isUpperC with
        | ['\"'] => some ((r1.dropWhile isSpaceC).takeWhile isUpperUnd, r5.takeWhile isUpperC)
        | _ => none
      | _ => none
    | _ => none
  | _ => none

/-- Continuation of the fourth source pattern
`^(.+?)\s+is\s+(success|failure|passed|failed)$` after the non-greedy name
group: at least one whitespace, the word is, at least one whitespace, then an
alternative reaching the end of the line. -/
def p3After (rest : List Char) : Option (List Char) :=
  match rest with
  | [] => none
  | c :: _ =>
    if isSpaceC c then
      match dropLitCI (s2l "is") (skipWs rest) with
      | none => none
      | some r2 =>
        match r2 with
        | [] => none
        | d :: _ =>
          if isSpaceC d then
            matchAltEnd [s2l "success", s2l "failure", s2l "passed", s2l "failed"] (skipWs r2)
          else none
    else none

def match3Aux : List Char → List Char → Option (List Char × List Char)
  | g1rev, [] =>
    match p3After [] with
    | some g2 => some (g1rev.reverse, g2)
    | none => none
  | g1rev, c :: cs =>
    match p3After (c :: cs) with
    | some g2 => some (g1rev.reverse, g2)
    | none => match3Aux (c :: g1rev) cs

/-- Matcher of the fourth source pattern, `^(.+?)\s+is\s+(success|failure|passed|failed)$`
under `re.I`; the name group needs at least one character. -/
def match3 (l : List Char) : Option (List Char × List Char) :=
  match l with
  | [] => none
  | c :: cs => match3Aux [c] cs

/-- A parsed test record: the Python dict with keys TestName, Result, Actual,
Standard, each initialised to the placeholder "N/A". -/
structure TestData where
  TestName : List Char
  Result : List Char
  Actual : List Char
  Standard : List Char
deriving DecidableEq, Repr

/-- The keyword lookup table KEYWORD_TO_STANDARD_MAP, in its source insertion
order (Python dicts iterate in insertion order). -/
def KEYWORD_TO_STANDARD_MAP : List (List Char × List Char) :=
  [ (s2l "gps", s2l "NMEA 0183"), (s2l "gnss", s2l "3GPP"),
    (s2l "bluetooth", s2l "Bluetooth Core Specification"), (s2l "wifi", s2l "IEEE 802.11"),
    (s2l "lte", s2l "3GPP LTE"), (s2l "can", s2l "ISO 11898"),
    (s2l "sensor", s2l "AEC-Q104"), (s2l "ip rating", s2l "IEC 60529"),
    (s2l "short circuit", s2l "AIS-156 / IEC 62133"), (s2l "overcharge", s2l "AIS-156"),
    (s2l "vibration", s2l "IEC 60068-2-6") ]

/-- First-match scan of a keyword table: the for-loop with break over
KEYWORD_TO_STANDARD_MAP.items(). -/
def findStd : List (List Char × List Char) → List Char → Option (List Char)
  | [], _ => none
  | (kw, st) :: rest, nm => if containsSub kw nm then some st else findStd rest nm

/-- Standard assignment of a freshly extracted record: the first keyword that is
a substring of the lower-cased test name sets the standard; no match leaves the
field untouched. -/
def setStandard (td : TestData) : TestData :=
  match findStd KEYWORD_TO_STANDARD_MAP (lowerStr td.TestName) with
  | some st => { td with Standard := st }
  | none => td

/-- Replacement performed by .replace applied to an underscore in a captured name. -/
def undToSpace (c : Char) : Char := if c = '_' then ' ' else c

/-- Classification of one stripped, non-empty line by intelligentParser: the
pattern attempts in source order.  The fifth attempt executes
`re.match(patterns, line, re.I)` — the whole pattern list instead of
`patterns[4]` — which raises `TypeError` unconditionally, modelled by
`.error ()`. -/
def parseLine (s : List Char) : Except Unit TestData :=
  match match0 s with
  | some (g1, g2, g3) =>
    .ok { TestName := strip g1,
          Result := if lowerStr g2 = s2l "passed" ∨ lowerStr g2 = s2l "success"
                    then s2l "PASS" else s2l "FAIL",
          Actual := strip g3, Standard := s2l "N/A" }
  | none =>
  match match1 s with
  | some (g1, g2) =>
    .ok { TestName := strip g1,
          Result := if containsSub (s2l "passed") (lowerStr g2) ||
                       containsSub (s2l "success") (lowerStr g2)
                    then s2l "PASS"
                    else if containsSub (s2l "failed") (lowerStr g2)
                    then s2l "FAIL" else s2l "INFO",
          Actual := strip g2, Standard := s2l "N/A" }
  | none =>
  match match2 s with
  | some (nm, tok) =>
    .ok { TestName := (strip nm).map undToSpace, Result := strip tok,
          Actual := s2l "N/A", Standard := s2l "N/A" }
  | none =>
  match match3 s with
  | some (g1, g2) =>
    .ok { TestName := strip g1,
          Result := if lowerStr g2 = s2l "success" ∨ lowerStr g2 = s2l "passed"
                    then s2l "PASS" else s2l "FAIL",
          Actual := s2l "N/A", Standard := s2l "N/A" }
  | none => .error ()

/-- Python `text.split('\n')`. -/
def splitNl : List Char → List (List Char)
  | [] => [[]]
  | c :: cs =>
    if c = '\n' then [] :: splitNl cs
    else
      match splitNl cs with
      | [] => [[c]]
      | h :: t => (c :: h) :: t

/-- Line loop of intelligentParser: strip each line, skip empties, classify the
rest, assign the standard, and collect the records; an exception raised on any
line propagates out of the whole call. -/
def intelligentParserGo : List (List Char) → Except Unit (List TestData)
  | [] => .ok []
  | l :: ls =>
    if (strip l).isEmpty then intelligentParserGo ls
    else
      match parseLine (strip l) with
      | .error e => .error e
      | .ok td =>
        match intelligentParserGo ls with
        | .error e => .error e
        | .ok rest => .ok (setStandard td :: rest)

/-- The intelligentParser function of the source: split the text into lines and
run the line loop. -/
def intelligentParser (text : List Char) : Except Unit (List TestData) :=
  intelligentParserGo (splitNl text)

/-- An uploaded file as parse_report sees it: a name and decoded text content. -/
structure UploadedFile where
  name : List Char
  content : List Char

/-- parse_report on the plain-text path: a missing upload yields []; otherwise
the decoded content (decode with errors ignored never raises) is fed to
intelligentParser inside try/except, and any exception is caught, an error is
displayed, and [] is returned.  The CSV/XLSX/PDF branches delegate to external
libraries inside the same try block and are outside this embedding. -/
def parse_report (f : Option UploadedFile) : List TestData :=
  match f with
  | none => []
  | some file =>
    match intelligentParser file.content with
    | .ok l => l
    | .error _ => []

/-- Membership test of the passed bucket: "PASS" in str(result).upper(). -/
def isPassRec (t : TestData) : Bool := containsSub (s2l "PASS") (upperStr t.Result)

/-- Membership test of the failed bucket: "FAIL" in str(result).upper(). -/
def isFailRec (t : TestData) : Bool := containsSub (s2l "FAIL") (upperStr t.Result)

/-- The three list comprehensions of the Test Report Verification page:
passed, failed, and other records of a parsed report. -/
def classify (l : List TestData) : List TestData × List TestData × List TestData :=
  (l.filter isPassRec, l.filter isFailRec,
   l.filter (fun t => !(isPassRec t || isFailRec t)))

/-! Helper lemmas. -/

theorem findStd_append_first (pre : List (List Char × List Char)) (kw st : List Char)
    (post : List (List Char × List Char)) (nm : List Char)
    (hk : containsSub kw nm = true)
    (hpre : ∀ p ∈ pre, containsSub p.1 nm = false) :
    findStd (pre ++ (kw, st) :: post) nm = some st := by
  induction pre with
  | nil => simp [findStd, hk]
  | cons a rest ih =>
    obtain ⟨ak, ast⟩ := a
    have ha : containsSub ak nm = false := hpre (ak, ast) (List.mem_cons_self _ _)
    simp only [List.cons_append, findStd, ha, Bool.false_eq_true, if_false]
    exact ih (fun p hp => hpre p (List.mem_cons_of_mem _ hp))

theorem findStd_none (L : List (List Char × List Char)) (nm : List Char)
    (h : ∀ p ∈ L, containsSub p.1 nm = false) : findStd L nm = none := by
  induction L with
  | nil => rfl
  | cons a rest ih =>
    obtain ⟨ak, ast⟩ := a
    have ha : containsSub ak nm = false := h (ak, ast) (List.mem_cons_self _ _)
    simp only [findStd, ha, Bool.false_eq_true, if_false]
    exact ih (fun p hp => h p (List.mem_cons_of_mem _ hp))

/-- C1: the spec expects the trailing-result pattern `A Failed` to yield one FAIL
record (scenario: "GPS Lock Acquisition Failed" with standard from keyword gps);
in the code the fifth pattern is dead: re.match is called with the whole pattern
list instead of patterns[4], so the call raises TypeError and no record is
produced.  The theorem evaluates the parser at the failing input. -/
theorem C1_trailing_result_raises :
    intelligentParser (s2l "GPS Lock Acquisition Failed") = Except.error () ∧
    parse_report (some { name := s2l "report.txt",
                         content := s2l "GPS Lock Acquisition Failed" }) = [] :=
  ⟨rfl, rfl⟩

/-- C2: the spec says the line classifier never throws and silently skips
unmatched lines; in the code every trimmed non-empty line that fails the first
four patterns reaches re.match(patterns, line, re.I), which raises TypeError.
The theorem evaluates the classifier and the parser at such a line. -/
theorem C2_classifier_raises :
    parseLine (s2l "hello") = Except.error () ∧
    intelligentParser (s2l "hello") = Except.error () :=
  ⟨rfl, rfl⟩

/-- C6: standard assignment is first-keyword-wins in the fixed iteration order
of KEYWORD_TO_STANDARD_MAP: the first entry whose keyword is a substring of the
lower-cased name sets the standard and scanning stops; when no keyword occurs
the lookup yields none and the record keeps "N/A".  For a name containing both
"can" and "gps" (text order can first), the gps entry — earlier in the map —
wins. -/
theorem C6_first_keyword_wins :
    (∀ pre kw st post nm, KEYWORD_TO_STANDARD_MAP = pre ++ (kw, st) :: post →
      containsSub kw (lowerStr nm) = true →
      (∀ p ∈ pre, containsSub p.1 (lowerStr nm) = false) →
      findStd KEYWORD_TO_STANDARD_MAP (lowerStr nm) = some st) ∧
    (∀ nm, (∀ p ∈ KEYWORD_TO_STANDARD_MAP, containsSub p.1 (lowerStr nm) = false) →
      findStd KEYWORD_TO_STANDARD_MAP (lowerStr nm) = none) ∧
    (setStandard { TestName := s2l "CAN bus GPS check", Result := s2l "PASS",
                   Actual := s2l "N/A", Standard := s2l "N/A" }).Standard =
      s2l "NMEA 0183" ∧
    (setStandard { TestName := s2l "Over-voltage Test", Result := s2l "PASS",
                   Actual := s2l "N/A", Standard := s2l "N/A" }).Standard =
      s2l "N/A" := by
  refine ⟨?_, ?_, rfl, rfl⟩
  · intro pre kw st post nm hmap hk hpre
    rw [hmap]
    exact findStd_append_first pre kw st post (lowerStr nm) hk hpre
  · intro nm h
    exact findStd_none KEYWORD_TO_STANDARD_MAP (lowerStr nm) h

/-- C6 witness: the first conjunct applied with the map split at its head entry
(gps), and the second with a keyword-free name. -/
theorem C6_first_keyword_wins_witness :
    findStd KEYWORD_TO_STANDARD_MAP (lowerStr (s2l "GPS antenna")) =
      some (s2l "NMEA 0183") ∧
    findStd KEYWORD_TO_STANDARD_MAP (lowerStr (s2l "Over-voltage Test")) = none :=
  ⟨C6_first_keyword_wins.1 [] (s2l "gps") (s2l "NMEA 0183")
      KEYWORD_TO_STANDARD_MAP.tail (s2l "GPS antenna") rfl (by decide)
      (fun p hp => absurd hp (List.not_mem_nil p)),
   C6_first_keyword_wins.2.1 (s2l "Over-voltage Test") (by decide)⟩

/-- C7: a line matched by the three-part arrow pattern yields exactly one record
with name = stripped first group, result PASS for passed/success and FAIL
otherwise, actual = stripped third group; end to end,
"Over-voltage Test --> Passed --> 58.2V" gives one record with name
"Over-voltage Test", result PASS, actual "58.2V" and the standard left "N/A"
(no keyword matches). -/
theorem C7_arrow_pattern :
    (∀ line a b c : List Char, match0 line = some (a, b, c) →
      parseLine line = Except.ok
        { TestName := strip a,
          Result := if lowerStr b = s2l "passed" ∨ lowerStr b = s2l "success"
                    then s2l "PASS" else s2l "FAIL",
          Actual := strip c, Standard := s2l "N/A" }) ∧
    intelligentParser (s2l "Over-voltage Test --> Passed --> 58.2V") =
      Except.ok [{ TestName := s2l "Over-voltage Test", Result := s2l "PASS",
                   Actual := s2l "58.2V", Standard := s2l "N/A" }] := by
  refine ⟨?_, rfl⟩
  intro line a b c h
  unfold parseLine
  rw [h]

/-- C7 witness: the universally quantified part applied at a concrete matching
line. -/
theorem C7_arrow_pattern_witness :
    parseLine (s2l "Insulation check --> SUCCESS --> 10 Mohm") = Except.ok
      { TestName := strip (s2l "Insulation check"),
        Result := if lowerStr (s2l "SUCCESS") = s2l "passed" ∨
                     lowerStr (s2l "SUCCESS") = s2l "success"
                  then s2l "PASS" else s2l "FAIL",
        Actual := strip (s2l "10 Mohm"), Standard := s2l "N/A" } :=
  C7_arrow_pattern.1 (s2l "Insulation check --> SUCCESS --> 10 Mohm")
    (s2l "Insulation check") (s2l "SUCCESS") (s2l "10 Mohm") (by decide)

/-- C9: parse_report never propagates an exception: a missing upload yields [],
a parse that raises (as the TypeError of the fifth pattern does) is caught and
yields [], and a successful parse returns its records. -/
theorem C9_parse_report_total :
    parse_report none = [] ∧
    (∀ (f : UploadedFile) (e : Unit),
      intelligentParser f.content = Except.error e → parse_report (some f) = []) ∧
    (∀ (f : UploadedFile) (l : List TestData),
      intelligentParser f.content = Except.ok l → parse_report (some f) = l) := by
  refine ⟨rfl, ?_, ?_⟩ <;> intro f x h <;> simp [parse_report, h]

/-- C9 witness: a text upload whose only line raises the TypeError of the fifth
pattern still makes parse_report return []. -/
theorem C9_parse_report_total_witness :
    parse_report (some { name := s2l "log.txt", content := s2l "some free text" }) = [] :=
  C9_parse_report_total.2.1 { name := s2l "log.txt", content := s2l "some free text" }
    () rfl

/-- C5 counterexample: the claim says an empty name capture falls back to the
placeholder "N/A"; in the code every matching branch overwrites the initialised
TestName with the stripped capture, so the line "--> Passed --> 5V" (empty
non-greedy first group) produces a record whose name is the empty string, not
"N/A". -/
theorem C5_counterexample :
    intelligentParser (s2l "--> Passed --> 5V") =
      Except.ok [{ TestName := [], Result := s2l "PASS",
                   Actual := s2l "5V", Standard := s2l "N/A" }] ∧
    ([] : List Char) ≠ s2l "N/A" :=
  ⟨rfl, by decide⟩

/-- C5 amended: no matching branch ever falls back to the "N/A" placeholder —
every reachable branch overwrites the initialised TestName with the stripped
name capture (the quoted-diagnostic branch additionally replaces every
underscore of the stripped capture with a space), so an empty capture yields an
empty name; end to end, "--> Passed --> 5V" produces a record whose name is the
empty string, not "N/A". -/
theorem C5_name_is_stripped_capture :
    (∀ line a b c : List Char, match0 line = some (a, b, c) →
      ∃ td, parseLine line = Except.ok td ∧ td.TestName = strip a) ∧
    (∀ line a b : List Char, match0 line = none → match1 line = some (a, b) →
      ∃ td, parseLine line = Except.ok td ∧ td.TestName = strip a) ∧
    (∀ line nm tok : List Char, match0 line = none → match1 line = none →
      match2 line = some (nm, tok) →
      ∃ td, parseLine line = Except.ok td ∧
        td.TestName = (strip nm).map undToSpace) ∧
    (∀ line a b : List Char, match0 line = none → match1 line = none →
      match2 line = none → match3 line = some (a, b) →
      ∃ td, parseLine line = Except.ok td ∧ td.TestName = strip a) ∧
    intelligentParser (s2l "--> Passed --> 5V") =
      Except.ok [{ TestName := [], Result := s2l "PASS",
                   Actual := s2l "5V", Standard := s2l "N/A" }] := by
  refine ⟨?_, ?_, ?_, ?_, rfl⟩
  · intro line a b c h
    unfold parseLine
    simp only [h]
    exact ⟨_, rfl, rfl⟩
  · intro line a b h0 h1
    unfold parseLine
    simp only [h0, h1]
    exact ⟨_, rfl, rfl⟩
  · intro line nm tok h0 h1 h2
    unfold parseLine
    simp only [h0, h1, h2]
    exact ⟨_, rfl, rfl⟩
  · intro line a b h0 h1 h2 h3
    unfold parseLine
    simp only [h0, h1, h2, h3]
    exact ⟨_, rfl, rfl⟩

/-- C5 witness: the arrow branch at the counterexample line, where the capture
strips to the empty string, and the quoted-diagnostic branch at a line whose
captured name carries an underscore. -/
theorem C5_name_is_stripped_capture_witness :
    (∃ td, parseLine (s2l "--> Passed --> 5V") = Except.ok td ∧
      td.TestName = strip (s2l "")) ∧
    (∃ td, parseLine (s2l "7: A_B: \"OK\"") = Except.ok td ∧
      td.TestName = (strip (s2l "A_B")).map undToSpace) :=
  ⟨C5_name_is_stripped_capture.1 (s2l "--> Passed --> 5V") (s2l "") (s2l "Passed")
      (s2l "5V") (by decide),
   C5_name_is_stripped_capture.2.2.1 (s2l "7: A_B: \"OK\"") (s2l "A_B") (s2l "OK")
      (by decide) (by decide) (by decide)⟩

theorem perm_three_filter {α : Type} (P F : α → Bool) (l : List α)
    (h : ∀ r ∈ l, ¬(P r = true ∧ F r = true)) :
    List.Perm (l.filter P ++ l.filter F ++ l.filter (fun r => !(P r || F r))) l := by
  induction l with
  | nil => simp
  | cons a t ih =>
    have ht : ∀ r ∈ t, ¬(P r = true ∧ F r = true) :=
      fun r hr => h r (List.mem_cons_of_mem a hr)
    have iht := ih ht
    have ha := h a (List.mem_cons_self a t)
    by_cases hP : P a = true
    · have hF : F a = false := by
        cases hFa : F a
        · rfl
        · exact absurd ⟨hP, hFa⟩ ha
      simp only [List.filter_cons, hP, hF, Bool.or_false, Bool.not_true,
        Bool.false_eq_true, if_false, if_true, List.cons_append]
      exact List.Perm.cons a iht
    · have hP0 : P a = false := Bool.eq_false_iff.mpr hP
      by_cases hF : F a = true
      · simp only [List.filter_cons, hP0, hF, Bool.false_or, Bool.not_true,
          Bool.false_eq_true, if_false, if_true]
        have hmid : List.Perm (t.filter P ++ a :: (t.filter F ++ t.filter (fun r => !(P r || F r))))
            (a :: (t.filter P ++ (t.filter F ++ t.filter (fun r => !(P r || F r))))) :=
          List.perm_middle
        rw [List.append_assoc, List.cons_append]
        refine hmid.trans (List.Perm.cons a ?_)
        rw [← List.append_assoc]
        exact iht
      · have hF0 : F a = false := Bool.eq_false_iff.mpr hF
        simp only [List.filter_cons, hP0, hF0, Bool.or_false, Bool.not_false,
          Bool.false_eq_true, if_false, if_true]
        exact List.Perm.trans List.perm_middle (List.Perm.cons a iht)

/-- C4 counterexample: the claim says classify partitions any record sequence
into three disjoint groups with every record in exactly one; the membership
tests are substring tests on the upper-cased result, so a record whose result
is "PASSFAIL" lands in both the passed and the failed group. -/
theorem C4_counterexample :
    classify [{ TestName := s2l "N/A", Result := s2l "PASSFAIL",
                Actual := s2l "N/A", Standard := s2l "N/A" }] =
      ([{ TestName := s2l "N/A", Result := s2l "PASSFAIL",
          Actual := s2l "N/A", Standard := s2l "N/A" }],
       [{ TestName := s2l "N/A", Result := s2l "PASSFAIL",
          Actual := s2l "N/A", Standard := s2l "N/A" }], []) :=
  rfl

/-- C4 amended: the three groups are order-preserving (each is a sublist of the
input) and, provided no record's upper-cased result contains both "PASS" and
"FAIL" as substrings, they are a partition: their concatenation is a
permutation of the input, so every record lands in exactly one group. -/
theorem C4_partition (l : List TestData)
    (h : ∀ r ∈ l, ¬(isPassRec r = true ∧ isFailRec r = true)) :
    List.Sublist (classify l).1 l ∧ List.Sublist (classify l).2.1 l ∧
    List.Sublist (classify l).2.2 l ∧
    List.Perm ((classify l).1 ++ (classify l).2.1 ++ (classify l).2.2) l :=
  ⟨List.filter_sublist l, List.filter_sublist l, List.filter_sublist l,
   perm_three_filter isPassRec isFailRec l h⟩

/-- C4 witness: the partition statement at a concrete three-record report with
one PASS, one FAIL and one INFO record. -/
theorem C4_partition_witness :
    List.Sublist (classify [{ TestName := s2l "a", Result := s2l "PASS",
                              Actual := [], Standard := [] },
                            { TestName := s2l "b", Result := s2l "FAIL",
                              Actual := [], Standard := [] },
                            { TestName := s2l "c", Result := s2l "INFO",
                              Actual := [], Standard := [] }]).1
      [{ TestName := s2l "a", Result := s2l "PASS", Actual := [], Standard := [] },
       { TestName := s2l "b", Result := s2l "FAIL", Actual := [], Standard := [] },
       { TestName := s2l "c", Result := s2l "INFO", Actual := [], Standard := [] }] ∧
    List.Sublist (classify [{ TestName := s2l "a", Result := s2l "PASS",
                              Actual := [], Standard := [] },
                            { TestName := s2l "b", Result := s2l "FAIL",
                              Actual := [], Standard := [] },
                            { TestName := s2l "c", Result := s2l "INFO",
                              Actual := [], Standard := [] }]).2.1
      [{ TestName := s2l "a", Result := s2l "PASS", Actual := [], Standard := [] },
       { TestName := s2l "b", Result := s2l "FAIL", Actual := [], Standard := [] },
       { TestName := s2l "c", Result := s2l "INFO", Actual := [], Standard := [] }] ∧
    List.Sublist (classify [{ TestName := s2l "a", Result := s2l "PASS",
                              Actual := [], Standard := [] },
                            { TestName := s2l "b", Result := s2l "FAIL",
                              Actual := [], Standard := [] },
                            { TestName := s2l "c", Result := s2l "INFO",
                              Actual := [], Standard := [] }]).2.2
      [{ TestName := s2l "a", Result := s2l "PASS", Actual := [], Standard := [] },
       { TestName := s2l "b", Result := s2l "FAIL", Actual := [], Standard := [] },
       { TestName := s2l "c", Result := s2l "INFO", Actual := [], Standard := [] }] ∧
    List.Perm ((classify [{ TestName := s2l "a", Result := s2l "PASS",
                            Actual := [], Standard := [] },
                          { TestName := s2l "b", Result := s2l "FAIL",
                            Actual := [], Standard := [] },
                          { TestName := s2l "c", Result := s2l "INFO",
                            Actual := [], Standard := [] }]).1 ++
               (classify [{ TestName := s2l "a", Result := s2l "PASS",
                            Actual := [], Standard := [] },
                          { TestName := s2l "b", Result := s2l "FAIL",
                            Actual := [], Standard := [] },
                          { TestName := s2l "c", Result := s2l "INFO",
                            Actual := [], Standard := [] }]).2.1 ++
               (classify [{ TestName := s2l "a", Result := s2l "PASS",
                            Actual := [], Standard := [] },
                          { TestName := s2l "b", Result := s2l "FAIL",
                            Actual := [], Standard := [] },
                          { TestName := s2l "c", Result := s2l "INFO",
                            Actual := [], Standard := [] }]).2.2)
      [{ TestName := s2l "a", Result := s2l "PASS", Actual := [], Standard := [] },
       { TestName := s2l "b", Result := s2l "FAIL", Actual := [], Standard := [] },
       { TestName := s2l "c", Result := s2l "INFO", Actual := [], Standard := [] }] :=
  C4_partition
    [{ TestName := s2l "a", Result := s2l "PASS", Actual := [], Standard := [] },
     { TestName := s2l "b", Result := s2l "FAIL", Actual := [], Standard := [] },
     { TestName := s2l "c", Result := s2l "INFO", Actual := [], Standard := [] }]
    (by decide)

/-- C8 counterexample: the claim says classify applied to the concatenation of
its own output reproduces the same partition for every record sequence; a
record whose result is "FAILPASS" is in both the passed and the failed bucket,
so the concatenation holds it twice and reclassifying does not reproduce the
partition. -/
theorem C8_counterexample :
    classify ((classify [{ TestName := [], Result := s2l "FAILPASS",
                           Actual := [], Standard := [] }]).1 ++
              (classify [{ TestName := [], Result := s2l "FAILPASS",
                           Actual := [], Standard := [] }]).2.1 ++
              (classify [{ TestName := [], Result := s2l "FAILPASS",
                           Actual := [], Standard := [] }]).2.2) ≠
      classify [{ TestName := [], Result := s2l "FAILPASS",
                  Actual := [], Standard := [] }] := by
  decide

/-- C8 amended: classify is idempotent on every record sequence in which no
record's upper-cased result contains both "PASS" and "FAIL" as substrings —
then the buckets are genuinely disjoint and reclassifying their concatenation
reproduces the same three-way partition. -/
theorem C8_idempotent (l : List TestData)
    (h : ∀ r ∈ l, ¬(isPassRec r = true ∧ isFailRec r = true)) :
    classify ((classify l).1 ++ (classify l).2.1 ++ (classify l).2.2) =
      classify l := by
  have hPP : (l.filter isPassRec).filter isPassRec = l.filter isPassRec :=
    List.filter_eq_self.mpr fun a ha => (List.mem_filter.mp ha).2
  have hPF : (l.filter isFailRec).filter isPassRec = [] :=
    List.filter_eq_nil_iff.mpr fun a ha hPa =>
      h a (List.mem_filter.mp ha).1 ⟨hPa, (List.mem_filter.mp ha).2⟩
  have hPO : (l.filter (fun t => !(isPassRec t || isFailRec t))).filter isPassRec = [] :=
    List.filter_eq_nil_iff.mpr fun a ha hPa => by
      have hoa := (List.mem_filter.mp ha).2
      simp only [Bool.not_eq_true', Bool.or_eq_false_iff] at hoa
      simp [hoa.1] at hPa
  have hFP : (l.filter isPassRec).filter isFailRec = [] :=
    List.filter_eq_nil_iff.mpr fun a ha hFa =>
      h a (List.mem_filter.mp ha).1 ⟨(List.mem_filter.mp ha).2, hFa⟩
  have hFF : (l.filter isFailRec).filter isFailRec = l.filter isFailRec :=
    List.filter_eq_self.mpr fun a ha => (List.mem_filter.mp ha).2
  have hFO : (l.filter (fun t => !(isPassRec t || isFailRec t))).filter isFailRec = [] :=
    List.filter_eq_nil_iff.mpr fun a ha hFa => by
      have hoa := (List.mem_filter.mp ha).2
      simp only [Bool.not_eq_true', Bool.or_eq_false_iff] at hoa
      simp [hoa.2] at hFa
  have hOP : (l.filter isPassRec).filter (fun t => !(isPassRec t || isFailRec t)) = [] :=
    List.filter_eq_nil_iff.mpr fun a ha hOa => by
      have hp := (List.mem_filter.mp ha).2
      simp [hp] at hOa
  have hOF : (l.filter isFailRec).filter (fun t => !(isPassRec t || isFailRec t)) = [] :=
    List.filter_eq_nil_iff.mpr fun a ha hOa => by
      have hf := (List.mem_filter.mp ha).2
      simp [hf] at hOa
  have hOO : (l.filter (fun t => !(isPassRec t || isFailRec t))).filter
      (fun t => !(isPassRec t || isFailRec t)) =
      l.filter (fun t => !(isPassRec t || isFailRec t)) :=
    List.filter_eq_self.mpr fun a ha => (List.mem_filter.mp ha).2
  simp only [classify, List.filter_append, hPP, hPF, hPO, hFP, hFF, hFO,
    hOP, hOF, hOO, List.append_nil, List.nil_append]

/-- C8 witness: idempotence at a concrete report with one PASS, one FAIL and
one UNKNOWN-result record. -/
theorem C8_idempotent_witness :
    classify ((classify [{ TestName := s2l "a", Result := s2l "PASS",
                           Actual := [], Standard := [] },
                         { TestName := s2l "b", Result := s2l "FAIL",
                           Actual := [], Standard := [] },
                         { TestName := s2l "c", Result := s2l "UNKNOWN",
                           Actual := [], Standard := [] }]).1 ++
              (classify [{ TestName := s2l "a", Result := s2l "PASS",
                           Actual := [], Standard := [] },
                         { TestName := s2l "b", Result := s2l "FAIL",
                           Actual := [], Standard := [] },
                         { TestName := s2l "c", Result := s2l "UNKNOWN",
                           Actual := [], Standard := [] }]).2.1 ++
              (classify [{ TestName := s2l "a", Result := s2l "PASS",
                           Actual := [], Standard := [] },
                         { TestName := s2l "b", Result := s2l "FAIL",
                           Actual := [], Standard := [] },
                         { TestName := s2l "c", Result := s2l "UNKNOWN",
                           Actual := [], Standard := [] }]).2.2) =
      classify [{ TestName := s2l "a", Result := s2l "PASS",
                  Actual := [], Standard := [] },
                { TestName := s2l "b", Result := s2l "FAIL",
                  Actual := [], Standard := [] },
                { TestName := s2l "c", Result := s2l "UNKNOWN",
                  Actual := [], Standard := [] }] :=
  C8_idempotent
    [{ TestName := s2l "a", Result := s2l "PASS", Actual := [], Standard := [] },
     { TestName := s2l "b", Result := s2l "FAIL", Actual := [], Standard := [] },
     { TestName := s2l "c", Result := s2l "UNKNOWN", Actual := [], Standard := [] }]
    (by decide)

theorem setStandard_Result (td : TestData) : (setStandard td).Result = td.Result := by
  unfold setStandard
  cases findStd KEYWORD_TO_STANDARD_MAP (lowerStr td.TestName) <;> rfl

theorem mem_takeWhile_pred (p : Char → Bool) (l : List Char) :
    ∀ c ∈ l.takeWhile p, p c = true := by
  induction l with
  | nil => intro c hc; exact absurd hc (List.not_mem_nil c)
  | cons a t ih =>
    intro c hc
    rw [List.takeWhile_cons] at hc
    by_cases hpa : p a = true
    · rw [if_pos hpa] at hc
      rcases List.mem_cons.mp hc with h | h
      · rw [h]; exact hpa
      · exact ih c h
    · rw [if_neg hpa] at hc
      exact absurd hc (List.not_mem_nil c)

theorem dropWhile_no (p : Char → Bool) (l : List Char) (h : ∀ c ∈ l, p c = false) :
    l.dropWhile p = l := by
  cases l with
  | nil => rfl
  | cons a t =>
    rw [List.dropWhile_cons, if_neg]
    simp [h a (List.mem_cons_self a t)]

theorem strip_no_ws (l : List Char) (h : ∀ c ∈ l, isSpaceC c = false) :
    strip l = l := by
  unfold strip skipWs
  rw [dropWhile_no _ _ h]
  rw [dropWhile_no _ _ (fun c hc => h c (List.mem_reverse.mp hc))]
  exact List.reverse_reverse l

theorem upper_not_space (c : Char) (h : isUpperC c = true) : isSpaceC c = false := by
  unfold isUpperC at h
  unfold isSpaceC
  simp only [Bool.and_eq_true, decide_eq_true_eq] at h
  simp only [Bool.or_eq_false_iff, beq_eq_false_iff_ne, ne_eq]
  omega

theorem match2_token (l nm tok : List Char) (h : match2 l = some (nm, tok)) :
    tok ≠ [] ∧ ∀ c ∈ tok, isUpperC c = true := by
  unfold match2 at h
  split at h
  · exact absurd h (by simp)
  · split at h
    · split at h
      · exact absurd h (by simp)
      · split at h
        · split at h
          · split at h
            · exact absurd h (by simp)
            · split at h
              · injection h with h2
                have h3 := congrArg Prod.snd h2
                simp only at h3
                subst h3
                constructor
                · intro hnil
                  simp_all
                · exact mem_takeWhile_pred isUpperC _
              · exact absurd h (by simp)
          · exact absurd h (by simp)
        · exact absurd h (by simp)
    · exact absurd h (by simp)

theorem parseLine_result (s : List Char) (td : TestData)
    (h : parseLine s = Except.ok td) :
    td.Result = s2l "PASS" ∨ td.Result = s2l "FAIL" ∨ td.Result = s2l "INFO" ∨
    (td.Result ≠ [] ∧ ∀ c ∈ td.Result, isUpperC c = true) := by
  unfold parseLine at h
  split at h
  next g1 g2 g3 heq =>
    injection h with h2
    subst h2
    by_cases hb : (lowerStr g2 = s2l "passed" ∨ lowerStr g2 = s2l "success")
    · left; simp [hb]
    · right; left; simp [hb]
  next h0 =>
    split at h
    next g1 g2 heq =>
      injection h with h2
      subst h2
      by_cases hb1 : (containsSub (s2l "passed") (lowerStr g2) ||
          containsSub (s2l "success") (lowerStr g2)) = true
      · left; simp [hb1]
      · by_cases hb2 : containsSub (s2l "failed") (lowerStr g2) = true
        · right; left; simp [hb1, hb2]
        · right; right; left; simp [hb1, hb2]
    next h1 =>
      split at h
      next nm tok heq =>
        injection h with h2
        subst h2
        right; right; right
        have hp := match2_token s nm tok heq
        have hnospace : ∀ c ∈ tok, isSpaceC c = false :=
          fun c hc => upper_not_space c (hp.2 c hc)
        show strip tok ≠ [] ∧ ∀ c ∈ strip tok, isUpperC c = true
        rw [strip_no_ws tok hnospace]
        exact hp
      next h2m =>
        split at h
        next g1 g2 heq =>
          injection h with h2
          subst h2
          by_cases hb : (lowerStr g2 = s2l "success" ∨ lowerStr g2 = s2l "passed")
          · left; simp [hb]
          · right; left; simp [hb]
        next h3m => exact absurd h (by simp)

theorem intelligentParserGoResult (ls : List (List Char)) (out : List TestData)
    (h : intelligentParserGo ls = Except.ok out) :
    ∀ r ∈ out, r.Result = s2l "PASS" ∨ r.Result = s2l "FAIL" ∨ r.Result = s2l "INFO" ∨
      (r.Result ≠ [] ∧ ∀ c ∈ r.Result, isUpperC c = true) := by
  induction ls generalizing out with
  | nil =>
    unfold intelligentParserGo at h
    injection h with h2
    subst h2
    intro r hr
    exact absurd hr (List.not_mem_nil r)
  | cons l ls ih =>
    unfold intelligentParserGo at h
    split at h
    · exact ih out h
    · split at h
      next e heq => exact absurd h (by simp)
      next td heq =>
        split at h
        next e2 heq2 => exact absurd h (by simp)
        next rest heq2 =>
          injection h with h2
          subst h2
          intro r hr
          rcases List.mem_cons.mp hr with hr1 | hr2
          · rw [hr1, setStandard_Result]
            exact parseLine_result _ td heq
          · exact ih rest heq2 r hr2

/-- C3 counterexample: the claim says every record's result is one of the four
normalized values and a quoted token other than PASS/FAIL becomes UNKNOWN; in
the code the quoted-diagnostic branch stores the raw quoted token, so the line
with quoted token OK yields result "OK", which is none of PASS, FAIL, INFO,
UNKNOWN. -/
theorem C3_counterexample :
    intelligentParser (s2l "1: SELF_TEST: \"OK\"") =
      Except.ok [{ TestName := s2l "SELF TEST", Result := s2l "OK",
                   Actual := s2l "N/A", Standard := s2l "N/A" }] ∧
    s2l "OK" ≠ s2l "PASS" ∧ s2l "OK" ≠ s2l "FAIL" ∧
    s2l "OK" ≠ s2l "INFO" ∧ s2l "OK" ≠ s2l "UNKNOWN" :=
  ⟨rfl, by decide, by decide, by decide, by decide⟩

/-- C3 amended: every record a successful parse produces has result PASS, FAIL
or INFO, except records of the quoted-diagnostic pattern, whose result is the
raw quoted token — a non-empty all-capitals string — left unnormalized (no
UNKNOWN value is ever produced). -/
theorem C3_result_values (text : List Char) (out : List TestData) (r : TestData)
    (h : intelligentParser text = Except.ok out) (hr : r ∈ out) :
    r.Result = s2l "PASS" ∨ r.Result = s2l "FAIL" ∨ r.Result = s2l "INFO" ∨
    (r.Result ≠ [] ∧ ∀ c ∈ r.Result, isUpperC c = true) :=
  intelligentParserGoResult (splitNl text) out h r hr

/-- C3 witness: the amended statement at a concrete parsed report. -/
theorem C3_result_values_witness :
    ({ TestName := s2l "Over-voltage Test", Result := s2l "PASS",
       Actual := s2l "58.2V", Standard := s2l "N/A" } : TestData).Result = s2l "PASS" ∨
    ({ TestName := s2l "Over-voltage Test", Result := s2l "PASS",
       Actual := s2l "58.2V", Standard := s2l "N/A" } : TestData).Result = s2l "FAIL" ∨
    ({ TestName := s2l "Over-voltage Test", Result := s2l "PASS",
       Actual := s2l "58.2V", Standard := s2l "N/A" } : TestData).Result = s2l "INFO" ∨
    (({ TestName := s2l "Over-voltage Test", Result := s2l "PASS",
        Actual := s2l "58.2V", Standard := s2l "N/A" } : TestData).Result ≠ [] ∧
     ∀ c ∈ ({ TestName := s2l "Over-voltage Test", Result := s2l "PASS",
              Actual := s2l "58.2V", Standard := s2l "N/A" } : TestData).Result,
       isUpperC c = true) :=
  C3_result_values (s2l "Over-voltage Test --> Passed --> 58.2V")
    [{ TestName := s2l "Over-voltage Test", Result := s2l "PASS",
       Actual := s2l "58.2V", Standard := s2l "N/A" }]
    { TestName := s2l "Over-voltage Test", Result := s2l "PASS",
      Actual := s2l "58.2V", Standard := s2l "N/A" }
    rfl (by decide)

theorem tw_app (p : Char → Bool) (xs : List Char) (y : Char) (ys : List Char)
    (hxs : ∀ c ∈ xs, p c = true) (hy : p y = false) :
    (xs ++ y :: ys).takeWhile p = xs ∧ (xs ++ y :: ys).dropWhile p = y :: ys := by
  induction xs with
  | nil =>
    constructor
    · rw [List.nil_append, List.takeWhile_cons, if_neg (by simp [hy])]
    · rw [List.nil_append, List.dropWhile_cons, if_neg (by simp [hy])]
  | cons a t ih =>
    have ha : p a = true := hxs a (List.mem_cons_self a t)
    have iht := ih (fun c hc => hxs c (List.mem_cons_of_mem a hc))
    constructor
    · rw [List.cons_append, List.takeWhile_cons, if_pos ha, iht.1]
    · rw [List.cons_append, List.dropWhile_cons, if_pos ha, iht.2]

theorem upperUnd_not_space (c : Char) (h : isUpperUnd c = true) :
    isSpaceC c = false := by
  unfold isUpperUnd isUpperC at h
  unfold isSpaceC
  simp only [Bool.or_eq_true, Bool.and_eq_true, decide_eq_true_eq, beq_iff_eq] at h
  simp only [Bool.or_eq_false_iff, beq_eq_false_iff_ne, ne_eq]
  omega

theorem digit_ne_dash (c : Char) (h : isDigitC c = true) : c ≠ '-' := by
  intro he; rw [he] at h; exact absurd h (by decide)

theorem space_ne_dash (c : Char) (h : isSpaceC c = true) : c ≠ '-' := by
  intro he; rw [he] at h; exact absurd h (by decide)

theorem upperUnd_ne_dash (c : Char) (h : isUpperUnd c = true) : c ≠ '-' := by
  intro he; rw [he] at h; exact absurd h (by decide)

theorem upper_ne_dash (c : Char) (h : isUpperC c = true) : c ≠ '-' := by
  intro he; rw [he] at h; exact absurd h (by decide)

theorem dropLit_arrow_none (s : List Char) (h : ∀ c ∈ s, c ≠ '-') :
    dropLit arrowLit s = none := by
  cases s with
  | nil => rfl
  | cons a t =>
    have ha : a ≠ '-' := h a (List.mem_cons_self a t)
    show dropLit ('-' :: '-' :: '>' :: []) (a :: t) = none
    unfold dropLit
    rw [if_neg (fun he => ha he.symm)]

theorem mem_of_mem_skipWs (c : Char) (l : List Char) (h : c ∈ skipWs l) : c ∈ l :=
  (List.dropWhile_sublist isSpaceC).subset h

theorem p0After_none (s : List Char) (h : ∀ c ∈ s, c ≠ '-') : p0After s = none := by
  unfold p0After
  rw [dropLit_arrow_none (skipWs s) (fun c hc => h c (mem_of_mem_skipWs c s hc))]

theorem p1After_none (s : List Char) (h : ∀ c ∈ s, c ≠ '-') : p1After s = none := by
  unfold p1After
  rw [dropLit_arrow_none (skipWs s) (fun c hc => h c (mem_of_mem_skipWs c s hc))]

theorem match0Aux_none (g rest : List Char) (h : ∀ c ∈ rest, c ≠ '-') :
    match0Aux g rest = none := by
  induction rest generalizing g with
  | nil => rfl
  | cons c cs ih =>
    unfold match0Aux
    rw [p0After_none (c :: cs) h]
    exact ih (c :: g) (fun d hd => h d (List.mem_cons_of_mem c hd))

theorem match1Aux_none (g rest : List Char) (h : ∀ c ∈ rest, c ≠ '-') :
    match1Aux g rest = none := by
  induction rest generalizing g with
  | nil => rfl
  | cons c cs ih =>
    unfold match1Aux
    rw [p1After_none (c :: cs) h]
    exact ih (c :: g) (fun d hd => h d (List.mem_cons_of_mem c hd))

theorem match0_none (l : List Char) (h : ∀ c ∈ l, c ≠ '-') : match0 l = none :=
  match0Aux_none [] l h

theorem match1_none (l : List Char) (h : ∀ c ∈ l, c ≠ '-') : match1 l = none :=
  match1Aux_none [] l h

theorem match2_shape (ds wsA nm wsB tok : List Char)
    (hds0 : ds ≠ []) (hds : ∀ c ∈ ds, isDigitC c = true)
    (hwsA : ∀ c ∈ wsA, isSpaceC c = true)
    (hnm0 : nm ≠ []) (hnm : ∀ c ∈ nm, isUpperUnd c = true)
    (hwsB : ∀ c ∈ wsB, isSpaceC c = true)
    (htok0 : tok ≠ []) (htok : ∀ c ∈ tok, isUpperC c = true) :
    match2 (ds ++ (':' :: (wsA ++ (nm ++ (':' :: (wsB ++ ('\"' :: (tok ++ ['\"'])))))))) =
      some (nm, tok) := by
  obtain ⟨n0, nm2, rfl⟩ := List.exists_cons_of_ne_nil hnm0
  obtain ⟨t0, tok2, rfl⟩ := List.exists_cons_of_ne_nil htok0
  obtain ⟨d0, ds2, rfl⟩ := List.exists_cons_of_ne_nil hds0
  have hd1 := tw_app isDigitC (d0 :: ds2) ':'
    (wsA ++ ((n0 :: nm2) ++ (':' :: (wsB ++ ('\"' :: ((t0 :: tok2) ++ ['\"']))))))
    hds (by decide)
  unfold match2
  rw [hd1.1, hd1.2]
  simp only [List.isEmpty_cons, Bool.false_eq_true, if_false]
  rw [show wsA ++ ((n0 :: nm2) ++ (':' :: (wsB ++ ('\"' :: ((t0 :: tok2) ++ ['\"']))))) =
      wsA ++ (n0 :: (nm2 ++ (':' :: (wsB ++ ('\"' :: ((t0 :: tok2) ++ ['\"'])))))) from rfl]
  have hA := tw_app isSpaceC wsA n0
    (nm2 ++ (':' :: (wsB ++ ('\"' :: ((t0 :: tok2) ++ ['\"'])))))
    hwsA (upperUnd_not_space n0 (hnm n0 (List.mem_cons_self _ _)))
  rw [hA.2]
  rw [show n0 :: (nm2 ++ (':' :: (wsB ++ ('\"' :: ((t0 :: tok2) ++ ['\"']))))) =
      (n0 :: nm2) ++ (':' :: (wsB ++ ('\"' :: ((t0 :: tok2) ++ ['\"'])))) from rfl]
  have hB := tw_app isUpperUnd (n0 :: nm2) ':'
    (wsB ++ ('\"' :: ((t0 :: tok2) ++ ['\"']))) hnm (by decide)
  rw [hB.1, hB.2]
  simp only [List.isEmpty_cons, Bool.false_eq_true, if_false]
  have hC := tw_app isSpaceC wsB '\"' ((t0 :: tok2) ++ ['\"']) hwsB (by decide)
  have hD := tw_app isUpperC (t0 :: tok2) '\"' [] htok (by decide)
  rw [hC.2]
  simp only [hD.1, hD.2, List.isEmpty_cons, Bool.false_eq_true, if_false]

theorem shape_no_dash (ds wsA nm wsB tok : List Char)
    (hds : ∀ c ∈ ds, isDigitC c = true)
    (hwsA : ∀ c ∈ wsA, isSpaceC c = true)
    (hnm : ∀ c ∈ nm, isUpperUnd c = true)
    (hwsB : ∀ c ∈ wsB, isSpaceC c = true)
    (htok : ∀ c ∈ tok, isUpperC c = true) :
    ∀ c ∈ ds ++ (':' :: (wsA ++ (nm ++ (':' :: (wsB ++ ('\"' :: (tok ++ ['\"']))))))),
      c ≠ '-' := by
  intro c hc
  simp only [List.mem_append, List.mem_cons, List.mem_nil_iff, or_false] at hc
  rcases hc with h | h | h | h | h | h | h | h | h <;>
  first
    | exact digit_ne_dash c (hds c h)
    | exact space_ne_dash c (hwsA c h)
    | exact space_ne_dash c (hwsB c h)
    | exact upperUnd_ne_dash c (hnm c h)
    | exact upper_ne_dash c (htok c h)
    | (subst h; decide)

/-- C10: a line of the quoted-diagnostic shape — a non-empty digit run, a
colon, optional whitespace, a non-empty `[A-Z_]` name, a colon, optional
whitespace, and a double-quoted non-empty `[A-Z]` token ending the line — is
classified by the third pattern, and the record's name is the captured name
with every underscore replaced by a space while the result is the raw token.
The pattern is compiled without re.I, so a lower-case name or result token
does not match it (and the all-caps concrete line end-to-end picks up the gps
standard). -/
theorem C10_quoted_pattern :
    (∀ ds wsA nm wsB tok : List Char,
      ds ≠ [] → (∀ c ∈ ds, isDigitC c = true) →
      (∀ c ∈ wsA, isSpaceC c = true) →
      nm ≠ [] → (∀ c ∈ nm, isUpperUnd c = true) →
      (∀ c ∈ wsB, isSpaceC c = true) →
      tok ≠ [] → (∀ c ∈ tok, isUpperC c = true) →
      parseLine (ds ++ (':' :: (wsA ++ (nm ++ (':' :: (wsB ++ ('\"' :: (tok ++ ['\"'])))))))) =
        Except.ok { TestName := nm.map undToSpace, Result := tok,
                    Actual := s2l "N/A", Standard := s2l "N/A" }) ∧
    match2 (s2l "1: self_test: \"PASS\"") = none ∧
    match2 (s2l "1: SELF_TEST: \"pass\"") = none ∧
    intelligentParser (s2l "12: GPS_LOCK: \"PASS\"") =
      Except.ok [{ TestName := s2l "GPS LOCK", Result := s2l "PASS",
                   Actual := s2l "N/A", Standard := s2l "NMEA 0183" }] := by
  refine ⟨?_, rfl, rfl, rfl⟩
  intro ds wsA nm wsB tok hds0 hds hwsA hnm0 hnm hwsB htok0 htok
  have hnd := shape_no_dash ds wsA nm wsB tok hds hwsA hnm hwsB htok
  have h0 := match0_none _ hnd
  have h1 := match1_none _ hnd
  have h2 := match2_shape ds wsA nm wsB tok hds0 hds hwsA hnm0 hnm hwsB htok0 htok
  unfold parseLine
  simp only [h0, h1, h2]
  rw [strip_no_ws nm (fun c hc => upperUnd_not_space c (hnm c hc)),
      strip_no_ws tok (fun c hc => upper_not_space c (htok c hc))]

/-- C10 witness: the universally quantified part at a concrete quoted
diagnostic line with an underscore in the name. -/
theorem C10_quoted_pattern_witness :
    parseLine (['1'] ++ (':' :: ([' '] ++ ((s2l "P_Q") ++
        (':' :: (([] : List Char) ++ ('\"' :: ((s2l "GOOD") ++ ['\"'])))))))) =
      Except.ok { TestName := (s2l "P_Q").map undToSpace, Result := s2l "GOOD",
                  Actual := s2l "N/A", Standard := s2l "N/A" } :=
  C10_quoted_pattern.1 ['1'] [' '] (s2l "P_Q") [] (s2l "GOOD")
    (by decide) (by decide) (by decide) (by decide) (by decide) (by decide)
    (by decide) (by decide)
